import Mathlib

/-!
Verification development for the posthoc binned-result core.

This file shallowly embeds the parts of the repository that the claims
C1..C10 are about:

* `src/posthoc/results/result.py`  — the `Result` data model and its
  arithmetic operators (`__add__`, `__sub__`, `__mul__`, `__div__`,
  `_check_consistency_edges`, `append_bin`);
* `src/posthoc/results/mcnp.py`    — `MCTALResult.parse` /
  `MCTALResult.extract_result`, the tally-text state machine;
* `src/posthoc/results/t4.py`      — `T4TXTResult.parse_endpoints`,
  the edition-offset scanner.

Modelling conventions, stated once here:

* IEEE-754 double values are modelled by `FV`: a rational number
  (`FV.fin`), the two infinities, or not-a-number (`FV.nan`).  Rounding is
  abstracted away (finite arithmetic is exact rational arithmetic); the
  special-value propagation rules (`0/0 = nan`, `x/0 = ±inf`, `nan` absorbs,
  `inf - inf = nan`, `inf * 0 = nan`, ...) follow IEEE-754.  Negative zero
  is not distinguished from zero.
* `np.sqrt` is not given a fixed interpretation: every operator takes the
  square-root function as an explicit argument `sq : FV → FV`, and every
  theorem below either quantifies over `sq` or holds for the concrete
  stand-in `sqrtSpec` for reasons independent of its finite values.
* `np.nan_to_num` maps `nan` to `0` and `±inf` to `±floatMax`
  (the largest double, `(2^53-1)·2^971`).
* `np.allclose(a, b, atol=tol)` keeps numpy's default relative tolerance
  `rtol = 1e-5`; its per-element test is
  `|a-b| ≤ atol + rtol·|b|` (false whenever either side is `nan`,
  true for two infinities of equal sign).
* numpy elementwise binary operations are modelled by `npBinop`, which
  fails on a length mismatch (size-1 broadcasting is not modelled; no
  verified statement exercises it).
* Text lines are modelled as lists of whitespace-separated tokens
  (`Tok.num` for a token that parses as a number, `Tok.word` otherwise);
  `re.split(' +', ''.strip()) == ['']` is modelled by `lineTokens`.
* File byte offsets (`f.tell()`) are abstracted to line counts: the
  position after reading the line of index `i` is `i+1`.  Offsets are only
  ever stored and compared, so any strictly increasing reindexing is
  faithful.
-/

/-- An IEEE-754 double, abstracted: exact rational for finite values plus
the special values.  (`DTYPE = float` in `result.py` line 13.) -/
inductive FV where
  | fin (q : ℚ)
  | posInf
  | negInf
  | nan
deriving DecidableEq

/-- IEEE addition on `FV` (numpy `+`). -/
def addFV : FV → FV → FV
  | .fin a, .fin b => .fin (a + b)
  | .fin _, .posInf => .posInf
  | .fin _, .negInf => .negInf
  | .posInf, .fin _ => .posInf
  | .negInf, .fin _ => .negInf
  | .posInf, .posInf => .posInf
  | .negInf, .negInf => .negInf
  | .posInf, .negInf => .nan
  | .negInf, .posInf => .nan
  | _, _ => .nan

/-- IEEE negation on `FV`. -/
def negFV : FV → FV
  | .fin a => .fin (-a)
  | .posInf => .negInf
  | .negInf => .posInf
  | .nan => .nan

/-- IEEE subtraction on `FV` (numpy `-`): `a - b = a + (-b)`. -/
def subFV (a b : FV) : FV := addFV a (negFV b)

/-- IEEE multiplication on `FV` (numpy `*`). -/
def mulFV : FV → FV → FV
  | .fin a, .fin b => .fin (a * b)
  | .fin a, .posInf => if 0 < a then .posInf else if a < 0 then .negInf else .nan
  | .fin a, .negInf => if 0 < a then .negInf else if a < 0 then .posInf else .nan
  | .posInf, .fin b => if 0 < b then .posInf else if b < 0 then .negInf else .nan
  | .negInf, .fin b => if 0 < b then .negInf else if b < 0 then .posInf else .nan
  | .posInf, .posInf => .posInf
  | .posInf, .negInf => .negInf
  | .negInf, .posInf => .negInf
  | .negInf, .negInf => .posInf
  | _, _ => .nan

/-- IEEE division on `FV` (numpy `/`): `0/0 = nan`, `x/0 = ±inf` for
`x ≠ 0` (the zero divisor is `+0`), `fin/inf = 0`, `inf/inf = nan`. -/
def divFV : FV → FV → FV
  | .fin a, .fin b =>
      if b = 0 then (if a = 0 then .nan else if 0 < a then .posInf else .negInf)
      else .fin (a / b)
  | .fin _, .posInf => .fin 0
  | .fin _, .negInf => .fin 0
  | .posInf, .fin b => if b < 0 then .negInf else .posInf
  | .negInf, .fin b => if b < 0 then .posInf else .negInf
  | _, _ => .nan

/-- The largest finite double, `(2^53 - 1) * 2^971`. -/
def floatMax : ℚ := (2 ^ 53 - 1) * 2 ^ 971

/-- Models `np.nan_to_num`: `nan ↦ 0`, `±inf ↦ ±floatMax`, finite unchanged. -/
def nanToNum : FV → FV
  | .nan => .fin 0
  | .posInf => .fin floatMax
  | .negInf => .fin (-floatMax)
  | .fin a => .fin a

/-- Machine epsilon of a double, `np.finfo(float64).eps = 2^-52`. -/
def eps64 : ℚ := 1 / 2 ^ 52

/-- numpy's default relative tolerance in `np.allclose`, `rtol = 1e-5`. -/
def rtolDefault : ℚ := 1 / 100000

/-- A computable stand-in for `np.sqrt`, used only to instantiate closed
statements; every verified statement is independent of its finite values
(the operators take the square-root function as a parameter). -/
def sqrtSpec : FV → FV
  | .nan => .nan
  | .negInf => .nan
  | .posInf => .posInf
  | .fin q => if q < 0 then .nan else .fin ((Nat.sqrt q.num.toNat : ℚ) / (Nat.sqrt q.den : ℚ))

/-- The per-element test of `np.allclose(a, b, atol)` with numpy's default
`rtol`: `|a - b| <= atol + rtol*|b|`; `nan` is never close, equal-signed
infinities are close. -/
def isclose (atol : ℚ) : FV → FV → Bool
  | .fin a, .fin b => decide (|a - b| ≤ atol + rtolDefault * |b|)
  | .posInf, .posInf => true
  | .negInf, .negInf => true
  | _, _ => false

/-- Models `np.allclose` on two equal-length arrays (the caller checks lengths). -/
def allcloseL (atol : ℚ) (a b : List FV) : Bool :=
  (List.zipWith (isclose atol) a b).all id

/-- Python truthiness of a float: `0.0` is falsy; `nan` and `±inf` are
truthy. -/
def truthyFV : FV → Bool
  | .fin q => decide (q ≠ 0)
  | _ => true

/-- The canonical binned result (`Result.__init__`, `result.py` lines
17-21): `errors` / `xerrors` are `None`-able arrays. -/
structure Result where
  edges : List FV
  contents : List FV
  errors : Option (List FV)
  xerrors : Option (List FV)
deriving DecidableEq

/-- The right-hand operand of an arithmetic operator: `np.isscalar(other)`
distinguishes a bare number from another `Result`. -/
inductive Operand where
  | scalar (s : FV)
  | result (r : Result)

/-- Failure modes of the `Result` algebra (each models one `raise` or
uncaught `TypeError`/`IndexError` in `result.py`). -/
inductive RErr where
  /-- `'ResultTuple edges have different sizes: {}!={}'` (line 45). -/
  | edgesSizeMismatch (na nb : Nat)
  /-- `'ResultTuples have incompatible edges'` (line 47). -/
  | incompatibleEdges
  /-- `'ResultTuple xerrors have different sizes.'` (line 57). -/
  | xerrorsSizeMismatch
  /-- `'ResultTuple have incompatible xerrors.'` (line 59). -/
  | incompatibleXerrors
  /-- numpy broadcast failure on elementwise arithmetic of two arrays of
  different lengths. -/
  | broadcastMismatch
  /-- Python `TypeError` from `None * scalar` / `None / scalar` when
  `self.errors is None` in the scalar branch of `__mul__` / `__div__`
  (lines 100 and 124). -/
  | noneScalarOp
  /-- Python/numpy `IndexError` from `self.edges[-2]` in `append_bin`
  when fewer than two edges exist (line 208). -/
  | indexError
deriving DecidableEq

/-- numpy elementwise binary operation on two arrays; fails unless the
lengths agree (size-1 broadcasting not modelled). -/
def npBinop (f : FV → FV → FV) (a b : List FV) : Except RErr (List FV) :=
  if a.length = b.length then .ok (List.zipWith f a b) else .error .broadcastMismatch

/-- numpy elementwise square, `arr**2`. -/
def npSq (l : List FV) : List FV := l.map (fun x => mulFV x x)

/-- The tolerance used by `_check_consistency_edges` (lines 34-40):
the module-global `TOLERANCE` when it is set and truthy (nonzero),
otherwise `100 * max(eps, eps) = 100 * eps64` (both dtypes are float64). -/
def resolveTol (tol? : Option ℚ) : ℚ :=
  match tol? with
  | some t => if t = 0 then 100 * eps64 else t
  | none => 100 * eps64

/-- Embeds `Result._check_consistency_edges` (lines 33-59): sizes then
`np.allclose` on edges; then, unless either is `None`, sizes then
`np.allclose` on xerrors. -/
def checkConsistencyEdges (tol? : Option ℚ) (a b : Result) : Except RErr Unit :=
  let tol := resolveTol tol?
  if a.edges.length = b.edges.length then
    if allcloseL tol a.edges b.edges then
      match a.xerrors, b.xerrors with
      | some xa, some xb =>
          if xa.length = xb.length then
            if allcloseL tol xa xb then .ok () else .error .incompatibleXerrors
          else .error .xerrorsSizeMismatch
      | _, _ => .ok ()
    else .error .incompatibleEdges
  else .error (.edgesSizeMismatch a.edges.length b.edges.length)

/-- Embeds `Result.__add__` (lines 61-76).  Scalar branch: contents shift, errors
copied through (also when `None`).  Result branch: consistency check, then
elementwise sum; errors combine as `sqrt(e1² + e2²)` when both present,
else whichever is present, else `None`.  The returned `Result` is built
from deep copies; `self` and `other` are never assigned to. -/
def addOp (sq : FV → FV) (tol? : Option ℚ) (a : Result) : Operand → Except RErr Result
  | .scalar s => .ok ⟨a.edges, a.contents.map (fun c => addFV c s), a.errors, a.xerrors⟩
  | .result b =>
    match checkConsistencyEdges tol? a b with
    | .error e => .error e
    | .ok _ =>
      match npBinop addFV a.contents b.contents with
      | .error e => .error e
      | .ok contents =>
        match a.errors, b.errors with
        | some e1, some e2 =>
          match npBinop addFV (npSq e1) (npSq e2) with
          | .error e => .error e
          | .ok t => .ok ⟨a.edges, contents, some (t.map sq), a.xerrors⟩
        | none, some e2 => .ok ⟨a.edges, contents, some e2, a.xerrors⟩
        | some e1, none => .ok ⟨a.edges, contents, some e1, a.xerrors⟩
        | none, none => .ok ⟨a.edges, contents, none, a.xerrors⟩

/-- Embeds `Result.__sub__` (lines 78-93): identical to `__add__` with
elementwise difference for contents (errors still combine by quadrature). -/
def subOp (sq : FV → FV) (tol? : Option ℚ) (a : Result) : Operand → Except RErr Result
  | .scalar s => .ok ⟨a.edges, a.contents.map (fun c => subFV c s), a.errors, a.xerrors⟩
  | .result b =>
    match checkConsistencyEdges tol? a b with
    | .error e => .error e
    | .ok _ =>
      match npBinop subFV a.contents b.contents with
      | .error e => .error e
      | .ok contents =>
        match a.errors, b.errors with
        | some e1, some e2 =>
          match npBinop addFV (npSq e1) (npSq e2) with
          | .error e => .error e
          | .ok t => .ok ⟨a.edges, contents, some (t.map sq), a.xerrors⟩
        | none, some e2 => .ok ⟨a.edges, contents, some e2, a.xerrors⟩
        | some e1, none => .ok ⟨a.edges, contents, some e1, a.xerrors⟩
        | none, none => .ok ⟨a.edges, contents, none, a.xerrors⟩

/-- Embeds `Result.__mul__` (lines 95-113).  Scalar branch: `errors =
self.errors * other` raises `TypeError` when `self.errors is None`
(line 100 has no `None` guard).  Result branch: elementwise product;
errors via `sqrt((c1·e2)² + (e1·c2)²)`, single-sided `c1·e2` / `e1·c2`,
or `None`. -/
def mulOp (sq : FV → FV) (tol? : Option ℚ) (a : Result) : Operand → Except RErr Result
  | .scalar s =>
    match a.errors with
    | none => .error .noneScalarOp
    | some es =>
        .ok ⟨a.edges, a.contents.map (fun c => mulFV c s), some (es.map (fun e => mulFV e s)),
             a.xerrors⟩
  | .result b =>
    match checkConsistencyEdges tol? a b with
    | .error e => .error e
    | .ok _ =>
      match npBinop mulFV a.contents b.contents with
      | .error e => .error e
      | .ok contents =>
        match a.errors, b.errors with
        | some e1, some e2 =>
          match npBinop mulFV a.contents e2 with
          | .error e => .error e
          | .ok u1 =>
            match npBinop mulFV e1 b.contents with
            | .error e => .error e
            | .ok u2 =>
              match npBinop addFV (npSq u1) (npSq u2) with
              | .error e => .error e
              | .ok t => .ok ⟨a.edges, contents, some (t.map sq), a.xerrors⟩
        | none, some e2 =>
          match npBinop mulFV a.contents e2 with
          | .error e => .error e
          | .ok t => .ok ⟨a.edges, contents, some t, a.xerrors⟩
        | some e1, none =>
          match npBinop mulFV e1 b.contents with
          | .error e => .error e
          | .ok t => .ok ⟨a.edges, contents, some t, a.xerrors⟩
        | none, none => .ok ⟨a.edges, contents, none, a.xerrors⟩

/-- Embeds `Result.__div__` (lines 115-140).  Scalar branch: like `__mul__`, and
raises `TypeError` when `self.errors is None` (line 124).  Result branch:
elementwise quotient; `np.nan_to_num` is applied to each ERROR formula
(`contents·sqrt((e1/c1)² + (e2/c2)²)`, `contents·e2/c2`, `e1/c2`) but NOT
to the contents, which keep any `nan`/`inf` produced by `0/0` or `x/0`
(the `warnings` context manager on lines 116-118 only silences the numpy
warning). -/
def divOp (sq : FV → FV) (tol? : Option ℚ) (a : Result) : Operand → Except RErr Result
  | .scalar s =>
    match a.errors with
    | none => .error .noneScalarOp
    | some es =>
        .ok ⟨a.edges, a.contents.map (fun c => divFV c s), some (es.map (fun e => divFV e s)),
             a.xerrors⟩
  | .result b =>
    match checkConsistencyEdges tol? a b with
    | .error e => .error e
    | .ok _ =>
      match npBinop divFV a.contents b.contents with
      | .error e => .error e
      | .ok contents =>
        match a.errors, b.errors with
        | some e1, some e2 =>
          match npBinop divFV e1 a.contents with
          | .error e => .error e
          | .ok t1 =>
            match npBinop divFV e2 b.contents with
            | .error e => .error e
            | .ok t2 =>
              match npBinop addFV (npSq t1) (npSq t2) with
              | .error e => .error e
              | .ok s2 =>
                match npBinop mulFV contents (s2.map sq) with
                | .error e => .error e
                | .ok errs => .ok ⟨a.edges, contents, some (errs.map nanToNum), a.xerrors⟩
        | none, some e2 =>
          match npBinop mulFV contents e2 with
          | .error e => .error e
          | .ok t =>
            match npBinop divFV t b.contents with
            | .error e => .error e
            | .ok errs => .ok ⟨a.edges, contents, some (errs.map nanToNum), a.xerrors⟩
        | some e1, none =>
          match npBinop divFV e1 b.contents with
          | .error e => .error e
          | .ok errs => .ok ⟨a.edges, contents, some (errs.map nanToNum), a.xerrors⟩
        | none, none => .ok ⟨a.edges, contents, none, a.xerrors⟩

/-- Embeds `2.*self.edges[-1] - self.edges[-2]` (line 208); `IndexError` when
fewer than two edges exist. -/
def extrapEdge (r : Result) : Except RErr FV :=
  match r.edges.reverse with
  | a :: b :: _ => .ok (subFV (mulFV (.fin 2) a) b)
  | _ => .error .indexError

/-- Embeds `Result.append_bin(edge, content, error, xerror)` (lines 207-214):
the new edge is the `edge` argument when truthy, else linear
extrapolation; `contents`/`errors` get `content`/`error`; `xerrors` — when
present — gets the `error` argument (line 214 appends `error`, not
`xerror`); the `xerror` argument is never read. -/
def appendBin (r : Result) (edge : Option FV) (content error xerror : FV) : Except RErr Result :=
  let newEdge : Except RErr FV :=
    match edge with
    | some e => if truthyFV e then .ok e else extrapEdge r
    | none => extrapEdge r
  match newEdge with
  | .error e => .error e
  | .ok ne =>
      .ok ⟨r.edges ++ [ne], r.contents ++ [content],
           r.errors.map (fun es => es ++ [error]),
           r.xerrors.map (fun xs => xs ++ [error])⟩

/-! ## MCNP tally-text state machine (`src/posthoc/results/mcnp.py`) -/

/-- A whitespace-separated token of a tally-text line: a numeric literal
(its parsed value) or any other word. -/
inductive Tok where
  | num (q : ℚ)
  | word (s : String)
deriving DecidableEq

/-- Models `re.split(' +', line.strip())`: on an empty line Python yields `['']`
(one non-numeric token), otherwise the token list itself. -/
def lineTokens (l : List Tok) : List Tok :=
  if l.isEmpty then [Tok.word ""] else l

/-- Failure modes of `MCTALResult.extract_result`. -/
inductive ExtractErr where
  /-- `'Could not find tally ...'` (mcnp.py line 57). -/
  | tallyNotFound (n : Nat)
  /-- `ValueError` from `zones.index(zone_number)` when the requested zone
  is not in the zone list (line 78). -/
  | zoneNotFound (q : ℚ)
  /-- `ValueError` from `int(...)`/`float(...)` on a non-numeric token
  (lines 74, 91, 121). -/
  | convError
  /-- `'Inconsistent lengths of x ({})/y ({})/ey ({})/ex ({}) arrays'`
  (lines 140-143), reporting only the four array lengths. -/
  | inconsistentLengths (nx ny ney nex : Nat)
deriving DecidableEq

/-- ASCII lowercasing of one character (models `re.I` matching). -/
def lowerChar (c : Char) : Char :=
  if 65 ≤ c.toNat && c.toNat ≤ 90 then Char.ofNat (c.toNat + 32) else c

/-- ASCII lowercasing of a token (models `re.I` matching). -/
def lowerStr (s : String) : String := String.mk (s.data.map lowerChar)

/-- Does the first character list lead the second one?  (Used for the
prefix-anchored `re.match('vals', ...)`.) -/
def leadChars : List Char → List Char → Bool
  | [], _ => true
  | _ :: _, [] => false
  | a :: as, b :: bs => a == b && leadChars as bs

/-- Eager left-to-right conversion of every token (Python's `map(int, …)`
/ `map(float, …)`: the first bad token raises). -/
def mapMTok {e b : Type} (f : Tok → Except e b) : List Tok → Except e (List b)
  | [] => .ok []
  | t :: ts =>
    match f t, mapMTok f ts with
    | .ok v, .ok vs => .ok (v :: vs)
    | .error err, _ => .error err
    | .ok _, .error err => .error err

/-- Is `q` a nonnegative integer (what a `([0-9]+)` regex group can
denote)? -/
def isNatQ (q : ℚ) : Bool := q.den == 1 && decide (0 ≤ q.num)

/-- Models `re.match('tally +([0-9]+)', line, re.I)` (line 34) on a token list:
first token the word `tally` (any case), second a nonnegative integer. -/
def matchTally : List Tok → Option Nat
  | .word w :: .num q :: _ =>
      if lowerStr w == "tally" && isNatQ q then some q.num.toNat else none
  | _ => none

/-- Models `re.match('f +([0-9]+)', line, re.I)` (line 64). -/
def matchF : List Tok → Option Nat
  | .word w :: .num q :: _ =>
      if lowerStr w == "f" && isNatQ q then some q.num.toNat else none
  | _ => none

/-- First character of an axis code: `[usmcet]`. -/
def axisChar (c : Char) : Bool :=
  c == 'u' || c == 's' || c == 'm' || c == 'c' || c == 'e' || c == 't'

/-- Models `re.match('([usmcet][tc]?) +([0-9]+)', line, re.I)` (line 81). -/
def matchX : List Tok → Option Nat
  | .word w :: .num q :: _ =>
      (match (lowerStr w).data with
       | [c] => if axisChar c && isNatQ q then some q.num.toNat else none
       | [c, d] =>
           if axisChar c && (d == 't' || d == 'c') && isNatQ q then some q.num.toNat else none
       | _ => none)
  | _ => none

/-- Models `re.match('vals', line, re.I)` (line 99): the line starts with the
letters `vals`. -/
def matchVals : List Tok → Bool
  | .word w :: _ => leadChars ['v', 'a', 'l', 's'] (lowerStr w).data
  | _ => false

/-- Python `float(token)`: the parsed value, or `ValueError` on a word. -/
def toFloatQ : Tok → Except ExtractErr ℚ
  | .num q => .ok q
  | .word _ => .error .convError

/-- Python `int(token)`: only an integer literal converts. -/
def toIntQ : Tok → Except ExtractErr ℚ
  | .num q => if q.den == 1 then .ok q else .error .convError
  | .word _ => .error .convError

/-- Models `floats[::2]` and `floats[1::2]` (lines 124-125): split an interleaved
list by parity of position. -/
def deinterleave : List ℚ → List ℚ × List ℚ
  | [] => ([], [])
  | [x] => ([x], [])
  | x :: y :: rest =>
      let p := deinterleave rest
      (x :: p.1, y :: p.2)

/-- Models `np.ediff1d`: consecutive differences, length one less than the
input's. -/
def ediff1dQ (l : List ℚ) : List ℚ :=
  List.zipWith (fun next cur => next - cur) l.tail l

/-- The states of the tally extraction machine (`mcnp.py` lines 15-22;
`SEARCH_TALLY` and `SEARCH_ZONE`/`SEARCH_VALS` numbering follows the
source; extraction starts in `SEARCH_F`). -/
inductive MState where
  | searchF
  | readF
  | searchX
  | readX
  | searchVals
  | searchZone
  | readVals
deriving DecidableEq

/-- The mutable locals of `extract_result`'s loop (lines 48-131).  In the
source, `n_zones`, `zones`, `zone_index`, `n_vals` and `must_skip` are
unbound until first assigned; they are modelled with inert defaults
(`0`/`[]`), which the machine provably never reads before the state that
assigns them. -/
structure MSt where
  state : MState
  nZones : Nat
  zones : List ℚ
  zoneIndex : Nat
  nVals : Nat
  xs : List ℚ
  mustSkip : Int
  ys : List ℚ
  eys : List ℚ
  done : Bool
deriving DecidableEq

/-- The initial loop state (line 53: `state = self.SEARCH_F`). -/
def initMSt : MSt := ⟨.searchF, 0, [], 0, 0, [], 0, [], [], false⟩

/-- The `elif` chain of the loop body (lines 63-114): everything except
the final `if state == self.READ_VALS` block.  Returns the updated state
and the (possibly truncated, line 112) token list handed to the value
reader. -/
def chainPart (zone : ℚ) (st : MSt) (l : List Tok) : Except ExtractErr (MSt × List Tok) :=
  match st.state with
  | .searchF =>
    match matchF l with
    | some n => .ok (if 0 < n then { st with state := .readF, nZones := n, zones := [] } else st, l)
    | none => .ok (st, l)
  | .readF =>
    match mapMTok toIntQ (lineTokens l) with
    | .error e => .error e
    | .ok ints =>
      let zones := st.zones ++ ints
      if st.nZones ≤ zones.length then
        match zones.findIdx? (fun z => z = zone) with
        | some idx => .ok ({ st with state := .searchX, zones := zones, zoneIndex := idx }, l)
        | none => .error (.zoneNotFound zone)
      else .ok ({ st with zones := zones }, l)
  | .searchX =>
    match matchX l with
    | some n =>
        .ok (if 1 < n then { st with state := .readX, nVals := n - 1 } else st, l)
    | none => .ok (st, l)
  | .readX =>
    match mapMTok toFloatQ (lineTokens l) with
    | .error e => .error e
    | .ok floats =>
      let xs := st.xs ++ floats
      if st.nVals ≤ xs.length then
        .ok ({ st with state := .searchVals, xs := xs.take st.nVals }, l)
      else .ok ({ st with xs := xs }, l)
  | .searchVals =>
    if matchVals l then
      .ok ({ st with state := .searchZone,
                     mustSkip := 2 * (st.zoneIndex : Int) * ((st.nVals : Int) + 1) }, l)
    else .ok (st, l)
  | .searchZone =>
    let splitted := lineTokens l
    let ms : Int := st.mustSkip - splitted.length
    if ms < 0 then
      .ok ({ st with state := .readVals, mustSkip := ms },
           splitted.drop ((splitted.length : Int) + ms).toNat)
    else .ok ({ st with mustSkip := ms }, l)
  | .readVals => .ok (st, l)

/-- The `if state == self.READ_VALS` block (lines 116-129): skip a blank
line, else parse the floats, extend `ys`/`eys` by parity, and when
`n_vals + 1` values have accumulated truncate both to `[1:n_vals]` and
break (`done`). -/
def processVals (st : MSt) (l : List Tok) : Except ExtractErr MSt :=
  if l.isEmpty || l == [Tok.word ""] then .ok st
  else
    match mapMTok toFloatQ l with
    | .error e => .error e
    | .ok floats =>
      let p := deinterleave floats
      let ys := st.ys ++ p.1
      let eys := st.eys ++ p.2
      if st.nVals + 1 ≤ ys.length then
        .ok { st with ys := (ys.take st.nVals).drop 1,
                      eys := (eys.take st.nVals).drop 1, done := true }
      else .ok { st with ys := ys, eys := eys }

/-- One full iteration of the line loop: the `elif` chain, then — exactly
when it left the machine in `READ_VALS` — the value-reading block on the
(possibly handed-over) line. -/
def stepLine (zone : ℚ) (st : MSt) (l : List Tok) : Except ExtractErr MSt :=
  match chainPart zone st l with
  | .error e => .error e
  | .ok (st1, vl) => if st1.state = .readVals then processVals st1 vl else .ok st1

/-- The `while line` loop of `extract_result` from the seek position:
lines are consumed in order until exhausted or `break`. -/
def runM (zone : ℚ) : MSt → List (List Tok) → Except ExtractErr MSt
  | st, [] => .ok st
  | st, l :: rest =>
    if st.done then .ok st
    else
      match stepLine zone st l with
      | .error e => .error e
      | .ok st2 => runM zone st2 rest

/-- Lines 133-160: append the `0` sentinels to `ys` and `eys`, run the
consistency check (`exs` is still the empty Python list there, so its
clause is dead and the check degenerates to the two shown), then build
the arrays: `eyarr *= yarr` (relative→absolute errors) and
`exarr = np.ediff1d(xs)`. -/
def finalizeM (st : MSt) : Except ExtractErr Result :=
  let ys2 := st.ys ++ [0]
  let eys2 := st.eys ++ [0]
  if st.xs.length ≠ ys2.length ∨ (eys2 ≠ [] ∧ ys2.length ≠ eys2.length) then
    .error (.inconsistentLengths st.xs.length ys2.length eys2.length 0)
  else
    .ok ⟨st.xs.map .fin, ys2.map .fin,
         some ((List.zipWith (fun a b => a * b) eys2 ys2).map FV.fin),
         some ((ediff1dQ st.xs).map .fin)⟩

/-- Embeds `MCTALResult.parse` (lines 30-39): scan every line for a tally header
and record `f.tell()` (here: the next line's index) keyed by tally
number. -/
def mcnpParse (lines : List (List Tok)) : List (Nat × Nat) :=
  lines.enum.filterMap fun p => (matchTally p.2).map fun n => (n, p.1 + 1)

/-- Models `self.start_dict.get(tally_number)`: Python dict assignment lets the
last occurrence win. -/
def lookupStart (pairs : List (Nat × Nat)) (t : Nat) : Option Nat :=
  ((pairs.filter (fun p => p.1 = t)).getLast?).map (fun p => p.2)

/-- Embeds `MCTALResult.extract_result(tally_number, zone_number)` (lines
48-160): look the tally up in the index, seek there, drive the machine
over the remaining lines, post-process. -/
def mcnpExtract (lines : List (List Tok)) (tally : Nat) (zone : ℚ) : Except ExtractErr Result :=
  match lookupStart (mcnpParse lines) tally with
  | none => .error (.tallyNotFound tally)
  | some off =>
    match runM zone initMSt (lines.drop off) with
    | .error e => .error e
    | .ok st => finalizeM st

/-! ## Edition-offset scanner (`T4TXTResult.parse_endpoints`, `src/posthoc/results/t4.py` lines 360-413) -/

/-- One line of the edition-text report, classified by the six mutually
exclusive line patterns of `T4TXTResult` (t4.py lines 339-344); `other`
covers every line matching none of them (data lines included). -/
inductive ELine where
  | editionStart
  | scoreStart
  | scoreName (s : String)
  | regionStart
  | regionEnd (n : Nat)
  | editionEnd
  | other
deriving DecidableEq

/-- The requested batch selector: an integer batch number or `'last'`. -/
inductive Sel where
  | num (n : Int)
  | last
deriving DecidableEq

/-- Models `self.batch_num == this_batch_num` (t4.py line 403): `'last'` never
equals an integer, and nothing equals Python `None`. -/
def selMatches : Sel → Option Nat → Bool
  | .num n, some m => n == (m : Int)
  | _, _ => false

/-- Failure modes of `parse_endpoints`. -/
inductive EpErr where
  /-- `ValueError('could not find results for batch_num={} in file {}')`
  (t4.py lines 407-408), naming the requested batch and the file. -/
  | batchNotFound (sel : Sel) (fname : String)
  /-- Python `IndexError` from `score_names[-1] = ...` (line 387) when no
  score section is open. -/
  | indexError
deriving DecidableEq

/-- The scan state of `parse_endpoints` (t4.py lines 363-367). -/
structure EpSt where
  endpoints : List (List (Option Nat × Nat))
  scoreNames : List String
  scoreEndpoints : List (Option Nat × Nat)
  regionStart : Option Nat
  thisBatch : Option Nat
  stopped : Bool
deriving DecidableEq

/-- The initial scan state: empty lists, `region_start = None`,
`this_batch_num = None`. -/
def initEpSt : EpSt := ⟨[], [], [], none, none, false⟩

/-- One iteration of the scan loop (t4.py lines 370-404).  `pos` is the
index of the line being read, so `f.tell()` afterwards is `pos + 1`.
After the `break` (`stopped`), remaining lines are not processed. -/
def stepEp (sel : Sel) (st : EpSt) (pos : Nat) (l : ELine) : Except EpErr EpSt :=
  if st.stopped then .ok st
  else
    match l with
    | .editionStart => .ok { st with scoreEndpoints := [], endpoints := [], scoreNames := [] }
    | .scoreStart =>
        .ok { st with
              endpoints := if st.scoreEndpoints ≠ [] then st.endpoints ++ [st.scoreEndpoints]
                           else st.endpoints,
              scoreEndpoints := [],
              scoreNames := st.scoreNames ++ [""] }
    | .scoreName s =>
        if st.scoreNames = [] then .error .indexError
        else .ok { st with scoreNames := st.scoreNames.dropLast ++ [s] }
    | .regionStart => .ok { st with regionStart := some (pos + 1) }
    | .regionEnd n =>
        .ok { st with thisBatch := some n,
                      scoreEndpoints := st.scoreEndpoints ++ [(st.regionStart, pos + 1)] }
    | .editionEnd =>
        .ok { st with endpoints := st.endpoints ++ [st.scoreEndpoints],
                      stopped := selMatches sel st.thisBatch }
    | .other => .ok st

/-- The scan loop over all lines, threading the line index. -/
def runEp (sel : Sel) : EpSt → Nat → List ELine → Except EpErr EpSt
  | st, _, [] => .ok st
  | st, pos, l :: rest =>
    match stepEp sel st pos l with
    | .error e => .error e
    | .ok st2 => runEp sel st2 (pos + 1) rest

/-- The value `parse_endpoints` leaves on the object: the per-score lists
of `(start, end)` ranges, the resolved batch number (`self.batch_num`
after the possible `'last'` substitution; `none` models Python `None`),
and the score-name/index pairs backing `self.score_numbers`. -/
structure EpOut where
  endpoints : List (List (Option Nat × Nat))
  batchNum : Option Int
  scoreNumbers : List (String × Nat)
deriving DecidableEq

/-- Embeds `T4TXTResult.parse_endpoints` (t4.py lines 360-413): scan, fail if no
edition terminator was ever seen (`endpoints` empty) naming batch and
file, substitute `'last'` by the batch of the most recently completed
region, build the score-name numbering. -/
def parseEndpoints (fname : String) (lines : List ELine) (sel : Sel) : Except EpErr EpOut :=
  match runEp sel initEpSt 0 lines with
  | .error e => .error e
  | .ok st =>
    if st.endpoints = [] then .error (.batchNotFound sel fname)
    else
      let batch : Option Int :=
        match sel with
        | .last => st.thisBatch.map Int.ofNat
        | .num n => some n
      .ok ⟨st.endpoints, batch, st.scoreNames.enum.map (fun p => (p.2, p.1))⟩

/-- The batch number on the last region footer of the file — with
selector `'last'` this is what the scan leaves in `this_batch_num`. -/
def lastRegionBatch (lines : List ELine) : Option Nat :=
  lines.foldl (fun acc l => match l with | .regionEnd n => some n | _ => acc) none

/-! ## Remaining definitions (predicates and concrete inputs used by the
theorems) -/

/-- Decidable equality on `Except`, so concrete runs can be checked by
`decide`. -/
instance exceptDecEq {e a : Type} [DecidableEq e] [DecidableEq a] : DecidableEq (Except e a) :=
  fun x y =>
    match x, y with
    | .ok v, .ok w =>
      if h : v = w then isTrue (by rw [h]) else isFalse (by intro hc; cases hc; exact h rfl)
    | .error v, .error w =>
      if h : v = w then isTrue (by rw [h]) else isFalse (by intro hc; cases hc; exact h rfl)
    | .ok _, .error _ => isFalse (by intro hc; cases hc)
    | .error _, .ok _ => isFalse (by intro hc; cases hc)

/-- Is the value finite? -/
def isFinFV : FV → Bool
  | .fin _ => true
  | _ => false

/-- When the optional array is present its length is `n` (decidably). -/
def optLenB (o : Option (List FV)) (n : Nat) : Bool :=
  match o with
  | none => true
  | some l => l.length == n

/-- The C8 scenario tally file: header `tally 4`, `f 2`, zone list `5 9`,
grid `e 3` with values `0 1 2`, `vals`, and one line of 6 value/error
pairs. -/
def mctalLines8 (v0 e0 v1 e1 v2 e2 v3 e3 v4 e4 v5 e5 : ℚ) : List (List Tok) :=
  [[.word "tally", .num 4],
   [.word "f", .num 2],
   [.num 5, .num 9],
   [.word "e", .num 3],
   [.num 0, .num 1, .num 2],
   [.word "vals"],
   [.num v0, .num e0, .num v1, .num e1, .num v2, .num e2,
    .num v3, .num e3, .num v4, .num e4, .num v5, .num e5]]

/-- A tally file whose `vals` block ends (EOF) after a single value/error
pair — one pair short of the `n_vals + 1 = 3` the machine needs. -/
def mctalLinesShort : List (List Tok) :=
  [[.word "tally", .num 1],
   [.word "f", .num 1],
   [.num 5],
   [.word "e", .num 3],
   [.num 0, .num 1, .num 2],
   [.word "vals"],
   [.num 10, .num (1/2)]]

/-- The `Result` that `extract_result` produces from `mctalLinesShort`. -/
def mctalShortRes : Result :=
  ⟨[.fin 0, .fin 1], [.fin 10, .fin 0], some [.fin 5, .fin 0], some [.fin 1]⟩

/-- A tally file that ends immediately after the tally header. -/
def mctalLinesHeaderOnly : List (List Tok) := [[.word "tally", .num 1]]

/-- One complete edition whose only region footer reports batch 10. -/
def editionLines1 : List ELine :=
  [.editionStart, .scoreStart, .scoreName "neutron_flux",
   .regionStart, .regionEnd 10, .editionEnd]

/-- Two complete editions for the same score/region; the second footer
reports batch 20. -/
def editionLines2 : List ELine :=
  editionLines1 ++
  [.editionStart, .scoreStart, .scoreName "neutron_flux",
   .regionStart, .regionEnd 20, .editionEnd]

/-- What `parse_endpoints` computes on `editionLines2` with `'last'`. -/
def editionOut2 : EpOut := ⟨[[(some 10, 11)]], some 20, [("neutron_flux", 0)]⟩

/-! ## Helper lemmas -/

/-- Indexing a `zipWith`: both operands present at `i` gives the combined
element. -/
theorem zipWith_getElem_some {α β γ : Type} (f : α → β → γ) :
    ∀ (a : List α) (b : List β) (i : Nat) (x : α) (y : β),
      a[i]? = some x → b[i]? = some y → (List.zipWith f a b)[i]? = some (f x y) := by
  intro a
  induction a with
  | nil => intro b i x y hx _; simp at hx
  | cons ha ta ih =>
    intro b i x y hx hy
    cases b with
    | nil => simp at hy
    | cons hb tb =>
      cases i with
      | zero =>
        simp only [List.getElem?_cons_zero, Option.some.injEq] at hx hy
        simp [List.zipWith, hx, hy]
      | succ j =>
        simp only [List.getElem?_cons_succ] at hx hy
        simpa [List.zipWith] using ih tb j x y hx hy

/-- Indexing a `map`. -/
theorem map_getElem_some {α β : Type} (f : α → β) :
    ∀ (l : List α) (i : Nat) (x : α), l[i]? = some x → (l.map f)[i]? = some (f x) := by
  intro l
  induction l with
  | nil => intro i x hx; simp at hx
  | cons h t ih =>
    intro i x hx
    cases i with
    | zero =>
      simp only [List.getElem?_cons_zero, Option.some.injEq] at hx
      simp [hx]
    | succ j =>
      simp only [List.getElem?_cons_succ] at hx
      simpa using ih j x hx

/-- Value `nan` absorbs through IEEE multiplication (left). -/
theorem mulFV_nan_left (s : FV) : mulFV .nan s = .nan := by cases s <;> rfl

/-- Value `nan` absorbs through IEEE division (left). -/
theorem divFV_nan_left (s : FV) : divFV .nan s = .nan := by cases s <;> rfl

/-- One element failing the `isclose` test makes `np.allclose` false. -/
theorem allcloseL_eq_false (atol : ℚ) :
    ∀ (a b : List FV) (i : Nat) (x y : FV),
      a[i]? = some x → b[i]? = some y → isclose atol x y = false →
      allcloseL atol a b = false := by
  intro a b i x y hx hy hcl
  have hz := zipWith_getElem_some (isclose atol) a b i x y hx hy
  rcases List.getElem?_eq_some_iff.mp hz with ⟨hlt, hget⟩
  by_contra hne
  have hall : (List.zipWith (isclose atol) a b).all id = true := by
    revert hne; unfold allcloseL; cases (List.zipWith (isclose atol) a b).all id <;> simp
  have := List.all_eq_true.mp hall (isclose atol x y) (by
    rw [← hget]; exact List.getElem_mem hlt)
  simp [hcl] at this

/-- On finite values, `(x + y) - y = x` holds exactly in the rational
model. -/
theorem zip_add_sub_cancel :
    ∀ (ca cb : List FV), ca.length = cb.length →
      ca.all isFinFV = true → cb.all isFinFV = true →
      List.zipWith subFV (List.zipWith addFV ca cb) cb = ca := by
  intro ca
  induction ca with
  | nil => intro cb h _ _; cases cb with
    | nil => rfl
    | cons hb tb => simp at h
  | cons ha ta ih =>
    intro cb hlen hfa hfb
    cases cb with
    | nil => simp at hlen
    | cons hb tb =>
      simp only [List.all_cons, Bool.and_eq_true] at hfa hfb
      cases ha with
      | fin qa =>
        cases hb with
        | fin qb =>
          simp only [List.zipWith, List.cons.injEq]
          constructor
          · show subFV (addFV (.fin qa) (.fin qb)) (.fin qb) = .fin qa
            simp [subFV, addFV, negFV]
          · exact ih tb (by simpa using hlen) hfa.2 hfb.2
        | posInf => simp [isFinFV] at hfb
        | negInf => simp [isFinFV] at hfb
        | nan => simp [isFinFV] at hfb
      | posInf => simp [isFinFV] at hfa
      | negInf => simp [isFinFV] at hfa
      | nan => simp [isFinFV] at hfa

/-- Function `npBinop` succeeds on equal lengths. -/
theorem npBinop_ok (f : FV → FV → FV) (a b : List FV) (h : a.length = b.length) :
    npBinop f a b = .ok (List.zipWith f a b) := by simp [npBinop, h]

/-- The consistency check reads only `edges` and `xerrors` of its left
operand. -/
theorem checkConsistencyEdges_congr_left (tol? : Option ℚ) (a a' b : Result)
    (he : a.edges = a'.edges) (hx : a.xerrors = a'.xerrors) :
    checkConsistencyEdges tol? a b = checkConsistencyEdges tol? a' b := by
  unfold checkConsistencyEdges
  rw [he, hx]

/-- Selector `'last'` never compares equal to a batch footer value. -/
theorem selMatches_last (o : Option Nat) : selMatches .last o = false := by
  cases o <;> rfl

/-- With selector `'last'` the scan never stops early, and
`this_batch_num` ends as the batch of the file's last region footer. -/
theorem runEp_last_thisBatch :
    ∀ (lines : List ELine) (st : EpSt) (pos : Nat) (st2 : EpSt),
      st.stopped = false → runEp .last st pos lines = .ok st2 →
      st2.stopped = false ∧
        st2.thisBatch =
          lines.foldl (fun acc l => match l with | .regionEnd n => some n | _ => acc)
            st.thisBatch := by
  intro lines
  induction lines with
  | nil =>
    intro st pos st2 hs hrun
    simp only [runEp] at hrun
    cases hrun
    exact ⟨hs, rfl⟩
  | cons l rest ih =>
    intro st pos st2 hs hrun
    simp only [runEp] at hrun
    cases hstep : stepEp .last st pos l with
    | error e => rw [hstep] at hrun; cases hrun
    | ok st1 =>
      rw [hstep] at hrun
      have hrun2 : runEp Sel.last st1 (pos + 1) rest = Except.ok st2 := hrun
      unfold stepEp at hstep
      rw [hs] at hstep
      simp only [Bool.false_eq_true, if_false] at hstep
      cases l with
      | editionStart =>
        simp only [Except.ok.injEq] at hstep
        subst hstep
        have h2 := ih _ (pos + 1) st2 (by rfl) hrun2
        exact h2
      | scoreStart =>
        simp only [Except.ok.injEq] at hstep
        subst hstep
        have h2 := ih _ (pos + 1) st2 (by rfl) hrun2
        exact h2
      | scoreName s =>
        by_cases hn : st.scoreNames = []
        · simp [hn] at hstep
        · simp only [if_neg hn, Except.ok.injEq] at hstep
          subst hstep
          have h2 := ih _ (pos + 1) st2 (by rfl) hrun2
          exact h2
      | regionStart =>
        simp only [Except.ok.injEq] at hstep
        subst hstep
        have h2 := ih _ (pos + 1) st2 (by rfl) hrun2
        exact h2
      | regionEnd n =>
        simp only [Except.ok.injEq] at hstep
        subst hstep
        have h2 := ih _ (pos + 1) st2 (by rfl) hrun2
        exact h2
      | editionEnd =>
        simp only [Except.ok.injEq] at hstep
        subst hstep
        have h2 := ih _ (pos + 1) st2 (by exact selMatches_last st.thisBatch) hrun2
        exact h2
      | other =>
        simp only [Except.ok.injEq] at hstep
        subst hstep
        have h2 := ih _ (pos + 1) st2 (by exact hs) hrun2
        exact h2

/-- Function `np.ediff1d` shortens a list by one. -/
theorem ediff1dQ_length (l : List ℚ) : (ediff1dQ l).length = l.length - 1 := by
  unfold ediff1dQ
  rw [List.length_zipWith, List.length_tail]
  omega

/-! ## Claims -/

/-- Claim C10: for every `Result` whose `xerrors` field is present,
`append_bin(edge, content, error, xerror)` (with a truthy `edge`) appends
the `error` argument — not the `xerror` argument — to `xerrors`, while
`edges`, `contents` and `errors` receive the new edge, content and error
respectively; the `xerror` argument does not occur in the output at
all. -/
theorem c10_append_bin_xerrors_gets_error
    (r : Result) (xs : List FV) (e c er x : FV)
    (hx : r.xerrors = some xs) (ht : truthyFV e = true) :
    appendBin r (some e) c er x =
      .ok ⟨r.edges ++ [e], r.contents ++ [c],
           r.errors.map (fun es => es ++ [er]), some (xs ++ [er])⟩ := by
  simp [appendBin, ht, hx]

/-- Witness for C10 at a concrete result with `xerrors` present: the
appended `xerrors` entry is the `error` argument `6`, not the `xerror`
argument `7`. -/
theorem c10_append_bin_xerrors_gets_error_witness :
    appendBin ⟨[.fin 0, .fin 1], [.fin 2, .fin 0], some [.fin 3, .fin 0], some [.fin 1, .fin 1]⟩
        (some (.fin 4)) (.fin 5) (.fin 6) (.fin 7) =
      .ok ⟨[.fin 0, .fin 1, .fin 4], [.fin 2, .fin 0, .fin 5],
           some [.fin 3, .fin 0, .fin 6], some [.fin 1, .fin 1, .fin 6]⟩ :=
  c10_append_bin_xerrors_gets_error
    ⟨[.fin 0, .fin 1], [.fin 2, .fin 0], some [.fin 3, .fin 0], some [.fin 1, .fin 1]⟩
    [.fin 1, .fin 1] (.fin 4) (.fin 5) (.fin 6) (.fin 7) rfl (by decide)

/-- Claim C4 (code bug): scalar `mul`/`div` do scale contents and errors
by the same factor when errors are present, but when `errors` is absent
the scalar branch evaluates `None * scalar` / `None / scalar` and raises
a `TypeError` instead of returning an errors-absent result. -/
theorem c4_scalar_ops_crash_on_absent_errors :
    mulOp sqrtSpec none ⟨[.fin 0, .fin 1], [.fin 1, .fin 0], none, none⟩ (.scalar (.fin 2)) =
        .error .noneScalarOp ∧
    divOp sqrtSpec none ⟨[.fin 0, .fin 1], [.fin 1, .fin 0], none, none⟩ (.scalar (.fin 2)) =
        .error .noneScalarOp ∧
    mulOp sqrtSpec none ⟨[.fin 0, .fin 1], [.fin 3, .fin 0], some [.fin 1, .fin 0], none⟩
        (.scalar (.fin 2)) =
      .ok ⟨[.fin 0, .fin 1], [.fin 6, .fin 0], some [.fin 2, .fin 0], none⟩ ∧
    divOp sqrtSpec none ⟨[.fin 0, .fin 1], [.fin 3, .fin 0], some [.fin 1, .fin 0], none⟩
        (.scalar (.fin 2)) =
      .ok ⟨[.fin 0, .fin 1], [.fin (3/2), .fin 0], some [.fin (1/2), .fin 0], none⟩ := by
  refine ⟨rfl, rfl, ?_, ?_⟩
  · rw [show mulOp sqrtSpec none
        ⟨[.fin 0, .fin 1], [.fin 3, .fin 0], some [.fin 1, .fin 0], none⟩ (.scalar (.fin 2)) =
        .ok ⟨[.fin 0, .fin 1], [.fin (3 * 2), .fin (0 * 2)],
             some [.fin (1 * 2), .fin (0 * 2)], none⟩ from rfl]
    norm_num
  · rw [show divOp sqrtSpec none
        ⟨[.fin 0, .fin 1], [.fin 3, .fin 0], some [.fin 1, .fin 0], none⟩ (.scalar (.fin 2)) =
        .ok ⟨[.fin 0, .fin 1], [.fin (3 / 2), .fin (0 / 2)],
             some [.fin (1 / 2), .fin (0 / 2)], none⟩ from rfl]
    norm_num

/-- Claim C6 (code bug): an edition file whose only edition reports batch
10, queried with batch 20, does NOT fail — `parse_endpoints` returns the
scanned (batch-10) offsets, because the `len(endpoints) == 0` guard only
fires when no edition terminator was seen at all; the second conjunct
records that batch 20 occurs nowhere in the file. -/
theorem c6_unmatched_batch_not_detected :
    parseEndpoints "t4.res" editionLines1 (.num 20) =
      .ok ⟨[[(some 4, 5)]], some 20, [("neutron_flux", 0)]⟩ ∧
    editionLines1.filterMap
        (fun l => match l with | ELine.regionEnd n => some n | _ => none) = [10] :=
  ⟨rfl, rfl⟩

/-- Claim C9: with selector `'last'` the scan completes and substitutes
the batch number of the most recently completed edition (the last region
footer of the file); on the two-edition scenario whose second footer
reports batch 20, the recorded ranges are the second edition's offsets
and the batch resolves to 20. -/
theorem c9_last_resolves_to_final_edition :
    (∀ (fname : String) (lines : List ELine) (out : EpOut),
        parseEndpoints fname lines .last = .ok out →
        out.batchNum = (lastRegionBatch lines).map Int.ofNat) ∧
    parseEndpoints "t4.res" editionLines2 .last = .ok editionOut2 := by
  constructor
  · intro fname lines out hp
    unfold parseEndpoints at hp
    cases hrun : runEp .last initEpSt 0 lines with
    | error e => rw [hrun] at hp; cases hp
    | ok st =>
      rw [hrun] at hp
      by_cases he : st.endpoints = []
      · simp [he] at hp
      · simp only [if_neg he, Except.ok.injEq] at hp
        subst hp
        have h := runEp_last_thisBatch lines initEpSt 0 st rfl hrun
        have h2 : st.thisBatch = lastRegionBatch lines := h.2
        show st.thisBatch.map Int.ofNat = _
        rw [h2]
  · rfl

/-- Witness for C9's general part, applied to the two-edition scenario:
the resolved batch number equals the last region footer's batch. -/
theorem c9_last_resolves_to_final_edition_witness :
    editionOut2.batchNum = (lastRegionBatch editionLines2).map Int.ofNat :=
  c9_last_resolves_to_final_edition.1 "t4.res" editionLines2 editionOut2 (by rfl)

/-- Claim C8: on the scenario file (`f 2`, zone list `5 9`, grid `e 3`
with values `0 1 2`, 6 value/error pairs), extracting zone 9 computes
`zone_index = 1` and `must_skip = 2·1·(2+1) = 6` leading tokens, and the
returned contents/errors are drawn from the second 3-pair group (value
`v4`, error `e4·v4` after relative→absolute normalization), never from
the first group. -/
theorem c8_zone_offset_selects_second_group
    (v0 e0 v1 e1 v2 e2 v3 e3 v4 e4 v5 e5 : ℚ) :
    mcnpExtract (mctalLines8 v0 e0 v1 e1 v2 e2 v3 e3 v4 e4 v5 e5) 4 9 =
      .ok ⟨[.fin 0, .fin 1], [.fin v4, .fin 0], some [.fin (e4 * v4), .fin 0], some [.fin 1]⟩ ∧
    (runM 9 initMSt (((mctalLines8 v0 e0 v1 e1 v2 e2 v3 e3 v4 e4 v5 e5).drop 1).take 5)).map
        (fun st => (st.zoneIndex, st.mustSkip)) = .ok (1, (6 : Int)) := by
  constructor
  · rw [show mcnpExtract (mctalLines8 v0 e0 v1 e1 v2 e2 v3 e3 v4 e4 v5 e5) 4 9 =
        .ok ⟨[.fin 0, .fin 1], [.fin v4, .fin 0], some [.fin (e4 * v4), .fin (0 * 0)],
             some [.fin (1 - 0)]⟩ from rfl]
    norm_num
  · rfl

/-- Claim C5 counterexample: on `mctalLinesShort` the file ends before the
machine's terminal break (`done` is still `false` at end-of-file — only 1
of the required 3 value/error pairs was read), yet the extraction does
NOT fail: the appended sentinels make the accumulated arrays
length-consistent and a (garbage, untruncated) result is returned. -/
theorem c5_eof_can_succeed_counterexample :
    (runM 5 initMSt (mctalLinesShort.drop 1)).map (fun st => st.done) = .ok false ∧
    mcnpExtract mctalLinesShort 1 5 = .ok mctalShortRes := by
  refine ⟨rfl, ?_⟩
  rw [show mcnpExtract mctalLinesShort 1 5 =
      .ok ⟨[.fin 0, .fin 1], [.fin 10, .fin 0], some [.fin (1/2 * 10), .fin (0 * 0)],
           some [.fin (1 - 0)]⟩ from rfl]
  norm_num [mctalShortRes]

/-- Claim C5 (amended): when end-of-file is reached before the terminal
break and the accumulated arrays are length-inconsistent, the extraction
fails with the inconsistent-lengths failure, which reports only the four
array lengths — no failure path of `extract_result` carries the machine
state. -/
theorem c5_eof_failure_reports_lengths_not_state
    (lines : List (List Tok)) (t : Nat) (z : ℚ) (off : Nat) (st : MSt)
    (hoff : lookupStart (mcnpParse lines) t = some off)
    (hrun : runM z initMSt (lines.drop off) = .ok st)
    (hdone : st.done = false)
    (hlen : st.xs.length ≠ st.ys.length + 1) :
    mcnpExtract lines t z =
      .error (.inconsistentLengths st.xs.length (st.ys.length + 1) (st.eys.length + 1) 0) := by
  unfold mcnpExtract
  rw [hoff]
  show (match runM z initMSt (lines.drop off) with
        | Except.error e => Except.error e
        | Except.ok st => finalizeM st) = _
  rw [hrun]
  show finalizeM st = _
  unfold finalizeM
  rw [if_pos (Or.inl (by simpa using hlen))]
  simp

/-- Witness for C5's amended theorem: a file ending right after the tally
header fails with the lengths failure `(0, 1, 1, 0)`. -/
theorem c5_eof_failure_reports_lengths_not_state_witness :
    mcnpExtract mctalLinesHeaderOnly 1 5 = .error (.inconsistentLengths 0 1 1 0) :=
  c5_eof_failure_reports_lengths_not_state mctalLinesHeaderOnly 1 5 1 initMSt
    rfl rfl rfl (by decide)

/-- Claim C2 (code bug): every successful tally-format extraction returns
a result whose `contents` and `errors` have the edges' length, but whose
`xerrors` (consecutive grid differences, never sentinel-padded) has
length `len(edges) - 1 ≠ len(edges)`. -/
theorem c2_extraction_lengths
    (lines : List (List Tok)) (t : Nat) (z : ℚ) (r : Result)
    (h : mcnpExtract lines t z = .ok r) :
    r.contents.length = r.edges.length ∧
    (∀ es, r.errors = some es → es.length = r.edges.length) ∧
    (∀ xe, r.xerrors = some xe → xe.length + 1 = r.edges.length) ∧
    1 ≤ r.edges.length := by
  unfold mcnpExtract at h
  cases hoff : lookupStart (mcnpParse lines) t with
  | none => rw [hoff] at h; cases h
  | some off =>
    rw [hoff] at h
    have h2 : (match runM z initMSt (lines.drop off) with
               | Except.error e => Except.error e
               | Except.ok st => finalizeM st) = Except.ok r := h
    cases hrun : runM z initMSt (lines.drop off) with
    | error e => rw [hrun] at h2; cases h2
    | ok st =>
      rw [hrun] at h2
      have h3 : finalizeM st = Except.ok r := h2
      unfold finalizeM at h3
      by_cases hc : st.xs.length ≠ (st.ys ++ [0]).length ∨
          ((st.eys ++ [(0:ℚ)]) ≠ [] ∧ (st.ys ++ [0]).length ≠ (st.eys ++ [0]).length)
      · rw [if_pos hc] at h3; cases h3
      · rw [if_neg hc] at h3
        rw [not_or] at hc
        have hxy : st.xs.length = st.ys.length + 1 := by
          have := not_not.mp hc.1
          simpa using this
        have hye : st.ys.length = st.eys.length := by
          rcases not_and_or.mp hc.2 with hne | hle
          · exact absurd (by simp) hne
          · simpa using not_not.mp hle
        simp only [Except.ok.injEq] at h3
        subst h3
        refine ⟨?_, ?_, ?_, ?_⟩
        · simp [hxy]
        · intro es hes
          simp only [Option.some.injEq] at hes
          subst hes
          simp [List.length_zipWith, hxy, hye]
        · intro xe hxe
          simp only [Option.some.injEq] at hxe
          subst hxe
          simp [ediff1dQ_length, hxy]
        · simp [hxy]

/-- Witness for C2 at the concrete extraction from `mctalLinesShort`:
2 edges, 2 contents, 2 errors, but only 1 xerror. -/
theorem c2_extraction_lengths_witness :
    mctalShortRes.contents.length = mctalShortRes.edges.length ∧
    (∀ es, mctalShortRes.errors = some es → es.length = mctalShortRes.edges.length) ∧
    (∀ xe, mctalShortRes.xerrors = some xe → xe.length + 1 = mctalShortRes.edges.length) ∧
    1 ≤ mctalShortRes.edges.length :=
  c2_extraction_lengths mctalLinesShort 1 5 mctalShortRes (by
    rw [show mcnpExtract mctalLinesShort 1 5 =
        .ok ⟨[.fin 0, .fin 1], [.fin 10, .fin 0], some [.fin (1/2 * 10), .fin (0 * 0)],
             some [.fin (1 - 0)]⟩ from rfl]
    norm_num [mctalShortRes])

/-- Claim C3 counterexample: the edges `[1000000]` and `[1000001]` differ
by `1`, far more than the documented tolerance `100·eps`, yet `a + b`
succeeds — `np.allclose` keeps its default relative tolerance `1e-5`,
and `1 ≤ 100·eps + 1e-5·1000001`. -/
theorem c3_rtol_counterexample :
    resolveTol none < |(1000000 : ℚ) - 1000001| ∧
    addOp sqrtSpec none ⟨[.fin 1000000], [.fin 1], none, none⟩
        (.result ⟨[.fin 1000001], [.fin 2], none, none⟩) =
      .ok ⟨[.fin 1000000], [.fin (1 + 2)], none, none⟩ := by
  constructor
  · norm_num [resolveTol, eps64]
  · have hchk : checkConsistencyEdges none
        (⟨[.fin 1000000], [.fin 1], none, none⟩ : Result)
        (⟨[.fin 1000001], [.fin 2], none, none⟩ : Result) = .ok () := by
      norm_num [checkConsistencyEdges, allcloseL, isclose, resolveTol, eps64, rtolDefault]
    simp [addOp, hchk, npBinop, addFV]

/-- Claim C3 (amended): when some pair of edges fails the `np.allclose`
per-element test (absolute tolerance `resolveTol`, relative `1e-5`), all
four binary operations fail with the incompatible-edges failure; the
operators never assign to either operand (they are embedded as pure
functions — every branch of the source builds a new `Result` from deep
copies), so the operands are unchanged. -/
theorem c3_mismatched_edges_all_ops_fail
    (sq : FV → FV) (tol? : Option ℚ) (a b : Result) (i : Nat) (x y : FV)
    (hlen : a.edges.length = b.edges.length)
    (hx : a.edges[i]? = some x) (hy : b.edges[i]? = some y)
    (hfar : isclose (resolveTol tol?) x y = false) :
    addOp sq tol? a (.result b) = .error .incompatibleEdges ∧
    subOp sq tol? a (.result b) = .error .incompatibleEdges ∧
    mulOp sq tol? a (.result b) = .error .incompatibleEdges ∧
    divOp sq tol? a (.result b) = .error .incompatibleEdges := by
  have hfalse := allcloseL_eq_false (resolveTol tol?) a.edges b.edges i x y hx hy hfar
  have hchk : checkConsistencyEdges tol? a b = .error .incompatibleEdges := by
    simp [checkConsistencyEdges, hlen, hfalse]
  exact ⟨by simp [addOp, hchk], by simp [subOp, hchk],
         by simp [mulOp, hchk], by simp [divOp, hchk]⟩

/-- Witness for C3's amended theorem: edges `[0]` vs `[1]` fail the
per-element test, and all four operations fail. -/
theorem c3_mismatched_edges_all_ops_fail_witness :
    addOp sqrtSpec none ⟨[.fin 0], [.fin 0], none, none⟩
        (.result ⟨[.fin 1], [.fin 0], none, none⟩) = .error .incompatibleEdges ∧
    subOp sqrtSpec none ⟨[.fin 0], [.fin 0], none, none⟩
        (.result ⟨[.fin 1], [.fin 0], none, none⟩) = .error .incompatibleEdges ∧
    mulOp sqrtSpec none ⟨[.fin 0], [.fin 0], none, none⟩
        (.result ⟨[.fin 1], [.fin 0], none, none⟩) = .error .incompatibleEdges ∧
    divOp sqrtSpec none ⟨[.fin 0], [.fin 0], none, none⟩
        (.result ⟨[.fin 1], [.fin 0], none, none⟩) = .error .incompatibleEdges :=
  c3_mismatched_edges_all_ops_fail sqrtSpec none
    ⟨[.fin 0], [.fin 0], none, none⟩ ⟨[.fin 1], [.fin 0], none, none⟩ 0 (.fin 0) (.fin 1)
    rfl rfl rfl (by norm_num [isclose, resolveTol, eps64, rtolDefault])

/-- Claim C7: for compatible results (the consistency check passes,
lengths agree), the contents of `(a + b) - b` equal the contents of `a`
exactly in the rational model (hence within floating tolerance), for
every error configuration; `a` and `b` are untouched (the operators are
pure functions of their operands). -/
theorem c7_add_sub_roundtrip
    (sq : FV → FV) (tol? : Option ℚ) (a b : Result) (n : Nat)
    (hchk : checkConsistencyEdges tol? a b = .ok ())
    (hca : a.contents.length = n) (hcb : b.contents.length = n)
    (hfa : a.contents.all isFinFV = true) (hfb : b.contents.all isFinFV = true)
    (hea : optLenB a.errors n = true) (heb : optLenB b.errors n = true) :
    ∃ s t, addOp sq tol? a (.result b) = .ok s ∧
           subOp sq tol? s (.result b) = .ok t ∧
           t.contents = a.contents := by
  have hlen1 : a.contents.length = b.contents.length := hca.trans hcb.symm
  have hc := npBinop_ok addFV a.contents b.contents hlen1
  have hzlen : (List.zipWith addFV a.contents b.contents).length = b.contents.length := by
    rw [List.length_zipWith, hca, hcb]; exact Nat.min_self n
  have hcs := npBinop_ok subFV (List.zipWith addFV a.contents b.contents) b.contents hzlen
  have hcancel := zip_add_sub_cancel a.contents b.contents hlen1 hfa hfb
  rcases ha : a.errors with _ | e1 <;> rcases hb : b.errors with _ | e2
  · refine ⟨⟨a.edges, List.zipWith addFV a.contents b.contents, none, a.xerrors⟩,
            ⟨a.edges, List.zipWith subFV (List.zipWith addFV a.contents b.contents) b.contents,
             none, a.xerrors⟩, ?_, ?_, ?_⟩
    · simp [addOp, hchk, hc, ha, hb]
    · have hchk2 : checkConsistencyEdges tol?
          (⟨a.edges, List.zipWith addFV a.contents b.contents, none, a.xerrors⟩ : Result) b =
          .ok () := hchk
      simp [subOp, hchk2, hcs, hb]
    · exact hcancel
  · have hq : npBinop addFV (npSq e2) (npSq e2) =
        .ok (List.zipWith addFV (npSq e2) (npSq e2)) := npBinop_ok _ _ _ rfl
    refine ⟨⟨a.edges, List.zipWith addFV a.contents b.contents, some e2, a.xerrors⟩,
            ⟨a.edges, List.zipWith subFV (List.zipWith addFV a.contents b.contents) b.contents,
             some ((List.zipWith addFV (npSq e2) (npSq e2)).map sq), a.xerrors⟩, ?_, ?_, ?_⟩
    · simp [addOp, hchk, hc, ha, hb]
    · have hchk2 : checkConsistencyEdges tol?
          (⟨a.edges, List.zipWith addFV a.contents b.contents, some e2, a.xerrors⟩ : Result) b =
          .ok () := hchk
      simp [subOp, hchk2, hcs, hb, hq]
    · exact hcancel
  · have hq : npBinop addFV (npSq e1) (npSq e1) =
        .ok (List.zipWith addFV (npSq e1) (npSq e1)) := npBinop_ok _ _ _ rfl
    refine ⟨⟨a.edges, List.zipWith addFV a.contents b.contents, some e1, a.xerrors⟩,
            ⟨a.edges, List.zipWith subFV (List.zipWith addFV a.contents b.contents) b.contents,
             some e1, a.xerrors⟩, ?_, ?_, ?_⟩
    · simp [addOp, hchk, hc, ha, hb]
    · have hchk2 : checkConsistencyEdges tol?
          (⟨a.edges, List.zipWith addFV a.contents b.contents, some e1, a.xerrors⟩ : Result) b =
          .ok () := hchk
      simp [subOp, hchk2, hcs, hb]
    · exact hcancel
  · rw [ha] at hea
    rw [hb] at heb
    simp only [optLenB, beq_iff_eq] at hea heb
    have hq1 : npBinop addFV (npSq e1) (npSq e2) =
        .ok (List.zipWith addFV (npSq e1) (npSq e2)) :=
      npBinop_ok _ _ _ (by simp [npSq, hea, heb])
    have hq2 : npBinop addFV
          (npSq ((List.zipWith addFV (npSq e1) (npSq e2)).map sq)) (npSq e2) =
        .ok (List.zipWith addFV
          (npSq ((List.zipWith addFV (npSq e1) (npSq e2)).map sq)) (npSq e2)) :=
      npBinop_ok _ _ _ (by
        simp [npSq, List.length_zipWith, hea, heb])
    refine ⟨⟨a.edges, List.zipWith addFV a.contents b.contents,
             some ((List.zipWith addFV (npSq e1) (npSq e2)).map sq), a.xerrors⟩,
            ⟨a.edges, List.zipWith subFV (List.zipWith addFV a.contents b.contents) b.contents,
             some ((List.zipWith addFV
               (npSq ((List.zipWith addFV (npSq e1) (npSq e2)).map sq)) (npSq e2)).map sq),
             a.xerrors⟩, ?_, ?_, ?_⟩
    · simp [addOp, hchk, hc, ha, hb, hq1]
    · have hchk2 : checkConsistencyEdges tol?
          (⟨a.edges, List.zipWith addFV a.contents b.contents,
            some ((List.zipWith addFV (npSq e1) (npSq e2)).map sq), a.xerrors⟩ : Result) b =
          .ok () := hchk
      simp [subOp, hchk2, hcs, hb, hq2]
    · exact hcancel

/-- Witness for C7 at concrete compatible results (errors present on `a`
only): `(a + b) - b` recovers `a`'s contents. -/
theorem c7_add_sub_roundtrip_witness :
    ∃ s t, addOp sqrtSpec none
        (⟨[.fin 0, .fin 1], [.fin 1, .fin 2], some [.fin (1/2), .fin 0], none⟩ : Result)
        (.result ⟨[.fin 0, .fin 1], [.fin 3, .fin 4], none, none⟩) = .ok s ∧
      subOp sqrtSpec none s
        (.result ⟨[.fin 0, .fin 1], [.fin 3, .fin 4], none, none⟩) = .ok t ∧
      t.contents = (⟨[.fin 0, .fin 1], [.fin 1, .fin 2],
                     some [.fin (1/2), .fin 0], none⟩ : Result).contents :=
  c7_add_sub_roundtrip sqrtSpec none
    ⟨[.fin 0, .fin 1], [.fin 1, .fin 2], some [.fin (1/2), .fin 0], none⟩
    ⟨[.fin 0, .fin 1], [.fin 3, .fin 4], none, none⟩ 2
    (by norm_num [checkConsistencyEdges, allcloseL, isclose, resolveTol, eps64, rtolDefault])
    rfl rfl (by decide) (by decide) (by decide) (by decide)

/-- Any index below the length is occupied. -/
theorem getElem_some_of_lt {α : Type} (l : List α) (i : Nat) (h : i < l.length) :
    ∃ v, l[i]? = some v := by
  induction l generalizing i with
  | nil => simp at h
  | cons a t ih =>
    cases i with
    | zero => exact ⟨a, by simp⟩
    | succ j => simpa using ih j (by simpa using h)

/-- Claim C1 counterexample: `a / b` with `a.contents = b.contents = [0]`
(both errors present) leaves `nan`, not `0`, in the result's contents at
the zero index — only the error formula is passed through
`np.nan_to_num`. -/
theorem c1_contents_keep_nan_counterexample :
    divOp sqrtSpec none (⟨[.fin 1], [.fin 0], some [.fin 1], none⟩ : Result)
        (.result ⟨[.fin 1], [.fin 0], some [.fin 1], none⟩) =
      .ok ⟨[.fin 1], [.nan], some [.fin 0], none⟩ ∧
    FV.nan ≠ FV.fin 0 := by
  constructor
  · have hchk : checkConsistencyEdges none
        (⟨[.fin 1], [.fin 0], some [.fin 1], none⟩ : Result)
        (⟨[.fin 1], [.fin 0], some [.fin 1], none⟩ : Result) = .ok () := by
      norm_num [checkConsistencyEdges, allcloseL, isclose, resolveTol, eps64, rtolDefault]
    norm_num [divOp, hchk, npBinop, npSq, divFV, addFV, mulFV, sqrtSpec, nanToNum]
  · decide

/-- Claim C1 (amended): when `b.contents` is `0` at index `i` and
`a.contents` is `0` there too, `a / b` succeeds and its contents at `i`
are `nan` (the `0/0` is NOT mapped to `0`); only the error computations
run through `np.nan_to_num`: with both errors present, or only `b`'s,
the errors at `i` are exactly `0`; with only `a`'s errors present they
are `nan_to_num(a.errors[i] / 0)` (zero exactly when `a.errors[i] = 0`);
with neither, errors stay absent.  This holds for every square-root
interpretation `sq`. -/
theorem c1_div_by_zero_policy
    (sq : FV → FV) (tol? : Option ℚ) (a b : Result) (n i : Nat)
    (hchk : checkConsistencyEdges tol? a b = .ok ())
    (hca : a.contents.length = n) (hcb : b.contents.length = n)
    (hea : optLenB a.errors n = true) (heb : optLenB b.errors n = true)
    (hbz : b.contents[i]? = some (.fin 0)) (haz : a.contents[i]? = some (.fin 0)) :
    ∃ r, divOp sq tol? a (.result b) = .ok r ∧
      r.contents[i]? = some .nan ∧
      (∀ e1 e2, a.errors = some e1 → b.errors = some e2 →
        ∃ l, r.errors = some l ∧ l[i]? = some (.fin 0)) ∧
      (∀ e2, a.errors = none → b.errors = some e2 →
        ∃ l, r.errors = some l ∧ l[i]? = some (.fin 0)) ∧
      (∀ e1, a.errors = some e1 → b.errors = none →
        ∃ l, r.errors = some l ∧
          l[i]? = (e1[i]?).map (fun e => nanToNum (divFV e (.fin 0)))) ∧
      (a.errors = none → b.errors = none → r.errors = none) := by
  have hi : i < n := by
    have h := (List.getElem?_eq_some_iff.mp haz).1
    omega
  have hlen1 : a.contents.length = b.contents.length := hca.trans hcb.symm
  have hc := npBinop_ok divFV a.contents b.contents hlen1
  have hCi : (List.zipWith divFV a.contents b.contents)[i]? = some FV.nan := by
    have h := zipWith_getElem_some divFV a.contents b.contents i _ _ haz hbz
    simpa [divFV] using h
  rcases ha : a.errors with _ | e1 <;> rcases hb : b.errors with _ | e2
  · -- neither errors present
    refine ⟨⟨a.edges, List.zipWith divFV a.contents b.contents, none, a.xerrors⟩,
            ?_, hCi, ?_, ?_, ?_, ?_⟩
    · simp [divOp, hchk, hc, ha, hb]
    · intro e1 e2 h1 _; simp at h1
    · intro e2 _ h2; simp at h2
    · intro e1 h1 _; simp at h1
    · intro _ _; rfl
  · -- only b's errors present
    rw [hb] at heb
    simp only [optLenB, beq_iff_eq] at heb
    have h1 := npBinop_ok mulFV (List.zipWith divFV a.contents b.contents) e2
      (by rw [List.length_zipWith, hca, hcb, Nat.min_self, heb])
    have h2 := npBinop_ok divFV
      (List.zipWith mulFV (List.zipWith divFV a.contents b.contents) e2) b.contents
      (by simp [List.length_zipWith, hca, hcb, heb])
    refine ⟨⟨a.edges, List.zipWith divFV a.contents b.contents,
             some ((List.zipWith divFV
               (List.zipWith mulFV (List.zipWith divFV a.contents b.contents) e2)
               b.contents).map nanToNum), a.xerrors⟩, ?_, hCi, ?_, ?_, ?_, ?_⟩
    · simp [divOp, hchk, hc, ha, hb, h1, h2]
    · intro e1x e2x h1x _; simp at h1x
    · intro e2x _ h2x
      refine ⟨_, rfl, ?_⟩
      obtain ⟨v, hv⟩ := getElem_some_of_lt e2 i (by rw [heb]; exact hi)
      have hti := zipWith_getElem_some mulFV _ e2 i _ _ hCi hv
      rw [mulFV_nan_left] at hti
      have hdi := zipWith_getElem_some divFV _ b.contents i _ _ hti hbz
      rw [divFV_nan_left] at hdi
      have hmi := map_getElem_some nanToNum _ i _ hdi
      simpa [nanToNum] using hmi
    · intro e1x h1x _; simp at h1x
    · intro _ h2x; simp at h2x
  · -- only a's errors present
    rw [ha] at hea
    simp only [optLenB, beq_iff_eq] at hea
    have h1 := npBinop_ok divFV e1 b.contents (by rw [hea, hcb])
    refine ⟨⟨a.edges, List.zipWith divFV a.contents b.contents,
             some ((List.zipWith divFV e1 b.contents).map nanToNum), a.xerrors⟩,
            ?_, hCi, ?_, ?_, ?_, ?_⟩
    · simp [divOp, hchk, hc, ha, hb, h1]
    · intro e1x e2x _ h2x; simp at h2x
    · intro e2x _ h2x; simp at h2x
    · intro e1x h1x _
      have he1 : e1x = e1 := by
        simp only [Option.some.injEq] at h1x
        exact h1x.symm
      rw [he1]
      refine ⟨_, rfl, ?_⟩
      obtain ⟨w, hw⟩ := getElem_some_of_lt e1 i (by rw [hea]; exact hi)
      have hdi := zipWith_getElem_some divFV e1 b.contents i _ _ hw hbz
      have hmi := map_getElem_some nanToNum _ i _ hdi
      rw [hmi, hw]
      rfl
    · intro h1x _; simp at h1x
  · -- both errors present
    rw [ha] at hea
    rw [hb] at heb
    simp only [optLenB, beq_iff_eq] at hea heb
    have h1 := npBinop_ok divFV e1 a.contents (by rw [hea, hca])
    have h2 := npBinop_ok divFV e2 b.contents (by rw [heb, hcb])
    have h3 := npBinop_ok addFV (npSq (List.zipWith divFV e1 a.contents))
      (npSq (List.zipWith divFV e2 b.contents))
      (by simp [npSq, List.length_zipWith, hea, heb, hca, hcb])
    have h4 := npBinop_ok mulFV (List.zipWith divFV a.contents b.contents)
      ((List.zipWith addFV (npSq (List.zipWith divFV e1 a.contents))
        (npSq (List.zipWith divFV e2 b.contents))).map sq)
      (by simp [npSq, List.length_zipWith, hea, heb, hca, hcb])
    refine ⟨⟨a.edges, List.zipWith divFV a.contents b.contents,
             some ((List.zipWith mulFV (List.zipWith divFV a.contents b.contents)
               ((List.zipWith addFV (npSq (List.zipWith divFV e1 a.contents))
                 (npSq (List.zipWith divFV e2 b.contents))).map sq)).map nanToNum),
             a.xerrors⟩, ?_, hCi, ?_, ?_, ?_, ?_⟩
    · simp [divOp, hchk, hc, ha, hb, h1, h2, h3, h4]
    · intro e1x e2x _ _
      refine ⟨_, rfl, ?_⟩
      have hSlen : (((List.zipWith addFV (npSq (List.zipWith divFV e1 a.contents))
          (npSq (List.zipWith divFV e2 b.contents))).map sq)).length = n := by
        simp [npSq, List.length_zipWith, hea, heb, hca, hcb]
      obtain ⟨v, hv⟩ := getElem_some_of_lt
        ((List.zipWith addFV (npSq (List.zipWith divFV e1 a.contents))
          (npSq (List.zipWith divFV e2 b.contents))).map sq) i (by rw [hSlen]; exact hi)
      have hmi := zipWith_getElem_some mulFV _ _ i _ _ hCi hv
      rw [mulFV_nan_left] at hmi
      have hni := map_getElem_some nanToNum _ i _ hmi
      simpa [nanToNum] using hni
    · intro e2x h1x _; simp at h1x
    · intro e1x _ h2x; simp at h2x
    · intro h1x _; simp at h1x

/-- Witness for C1's amended theorem at the concrete `0/0` input with
both errors present: contents at the index are `nan`, errors are `0`. -/
theorem c1_div_by_zero_policy_witness :
    ∃ r, divOp sqrtSpec none (⟨[.fin 1], [.fin 0], some [.fin 1], none⟩ : Result)
        (.result ⟨[.fin 1], [.fin 0], some [.fin 1], none⟩) = .ok r ∧
      r.contents[0]? = some FV.nan ∧
      (∀ e1 e2, (⟨[.fin 1], [.fin 0], some [.fin 1], none⟩ : Result).errors = some e1 →
        (⟨[.fin 1], [.fin 0], some [.fin 1], none⟩ : Result).errors = some e2 →
        ∃ l, r.errors = some l ∧ l[0]? = some (.fin 0)) ∧
      (∀ e2, (⟨[.fin 1], [.fin 0], some [.fin 1], none⟩ : Result).errors = none →
        (⟨[.fin 1], [.fin 0], some [.fin 1], none⟩ : Result).errors = some e2 →
        ∃ l, r.errors = some l ∧ l[0]? = some (.fin 0)) ∧
      (∀ e1, (⟨[.fin 1], [.fin 0], some [.fin 1], none⟩ : Result).errors = some e1 →
        (⟨[.fin 1], [.fin 0], some [.fin 1], none⟩ : Result).errors = none →
        ∃ l, r.errors = some l ∧
          l[0]? = (e1[0]?).map (fun e => nanToNum (divFV e (.fin 0)))) ∧
      ((⟨[.fin 1], [.fin 0], some [.fin 1], none⟩ : Result).errors = none →
        (⟨[.fin 1], [.fin 0], some [.fin 1], none⟩ : Result).errors = none →
        r.errors = none) :=
  c1_div_by_zero_policy sqrtSpec none
    ⟨[.fin 1], [.fin 0], some [.fin 1], none⟩ ⟨[.fin 1], [.fin 0], some [.fin 1], none⟩ 1 0
    (by norm_num [checkConsistencyEdges, allcloseL, isclose, resolveTol, eps64, rtolDefault])
    rfl rfl (by decide) (by decide) (by simp) (by simp)
